import Mathlib

/-
  Verification development for the winter-wheat phenology and ground-cover
  estimator (src/wheat_phenology_tool.py).

  The Python class `WheatPhenologyAnalyzer` is shallowly embedded here:
  numeric values become rationals, mutable analyzer state becomes the
  explicit record `AnalyzerState`, and fallible code returns `Except`.
  External numeric-library routines (scipy interpolation / fitting,
  numpy exp, gaussian smoothing, percentile, random draws) are opaque
  parameters bundled in `NumLib`: every theorem below quantifies over an
  arbitrary `NumLib`, so no property rests on their concrete values.
  Bootstrap randomness (np.random.choice) is modelled by passing the
  drawn index lists explicitly.
-/

namespace WheatPhenology

/-- np.clip(x, 0, 1): clamp a value to the unit interval. -/
def clip01 (x : ℚ) : ℚ := max 0 (min 1 x)

/-- Python-level failures of the analyzer: ValueError (explicit raises and
library arity checks), NameError (reference to an unbound local), and
NaN-propagation (pandas max of an empty series yields NaN; where the code
then uses it as a curve amplitude, every output value becomes NaN — an
unusable result with no rational counterpart, surfaced by the embedding
as an error value). -/
inductive PyError
  | valueError
  | nameError
  | nanPropagation
deriving DecidableEq, Repr

/-- Opaque numeric-library routines used by the source (np.exp, scipy
interp1d linear/cubic, np.polyfit/np.polyval, scipy gaussian_filter1d,
np.percentile, np.random.random).  Kept abstract: theorems hold for every
instantiation. -/
structure NumLib where
  expQ : ℚ → ℚ
  interpLinear : List (ℤ × ℚ) → ℚ → ℚ
  interpCubic : List (ℤ × ℚ) → ℚ → ℚ
  polyfit : ℕ → List (ℤ × ℚ) → List ℚ
  polyval : List ℚ → ℚ → ℚ
  gaussian1d : ℚ → List ℚ → List ℚ
  percentile : ℚ → List (List ℚ) → List ℚ
  rand : ℕ → ℚ

/-- The mutable state of `WheatPhenologyAnalyzer`: the loaded observations
(date as an integer day number, NDVI value), the sowing and harvest dates,
and the two FVC parameters (`None` until estimated). -/
structure AnalyzerState where
  obs : List (ℤ × ℚ)
  sowing : ℤ
  harvest : ℤ
  soil : Option ℚ
  veg : Option ℚ
deriving DecidableEq, Repr

/-- One row of the `daily_ndvi` DataFrame built by `interpolate_ndvi`. -/
structure DailyPoint where
  date : ℤ
  dayOffset : ℤ
  ndvi : ℚ
  lower : ℚ
  upper : ℚ
  fvc : Option ℚ
  fvcLower : Option ℚ
  fvcUpper : Option ℚ
  groundCover : Option ℚ
  gcLower : Option ℚ
  gcUpper : Option ℚ
deriving DecidableEq, Repr

/-- Python min over a list (used for pandas Series.min and the min of the
anchor-date comprehension); `none` on an empty list. -/
def minFold {α : Type} [LinearOrder α] : List α → Option α
  | [] => none
  | x :: xs =>
    match minFold xs with
    | none => some x
    | some m => some (min x m)

/-- Python max over a list; `none` on an empty list. -/
def maxFold {α : Type} [LinearOrder α] : List α → Option α
  | [] => none
  | x :: xs =>
    match maxFold xs with
    | none => some x
    | some m => some (max x m)

theorem minFold_eq_none {α : Type} [LinearOrder α] (l : List α) :
    minFold l = none ↔ l = [] := by
  cases l with
  | nil => simp [minFold]
  | cons x xs =>
    simp only [minFold]
    cases minFold xs <;> simp

theorem maxFold_eq_none {α : Type} [LinearOrder α] (l : List α) :
    maxFold l = none ↔ l = [] := by
  cases l with
  | nil => simp [maxFold]
  | cons x xs =>
    simp only [maxFold]
    cases maxFold xs <;> simp

theorem minFold_mem {α : Type} [LinearOrder α] {l : List α} {m : α}
    (h : minFold l = some m) : m ∈ l := by
  induction l generalizing m with
  | nil => simp [minFold] at h
  | cons x xs ih =>
    simp only [minFold] at h
    cases hx : minFold xs with
    | none => rw [hx] at h; simp at h; simp [h]
    | some m' =>
      rw [hx] at h
      simp at h
      rcases min_choice x m' with hc | hc <;> rw [← h, hc]
      · simp
      · exact List.mem_cons_of_mem _ (ih hx)

theorem minFold_le {α : Type} [LinearOrder α] {l : List α} {m : α}
    (h : minFold l = some m) : ∀ x ∈ l, m ≤ x := by
  induction l generalizing m with
  | nil => simp [minFold] at h
  | cons x xs ih =>
    simp only [minFold] at h
    cases hx : minFold xs with
    | none =>
      rw [hx] at h
      simp at h
      rw [minFold_eq_none] at hx
      subst hx
      simp [← h]
    | some m' =>
      rw [hx] at h
      simp at h
      intro y hy
      rcases List.mem_cons.mp hy with hy | hy
      · rw [← h, hy]; exact min_le_left _ _
      · rw [← h]
        exact le_trans (min_le_right _ _) (ih hx y hy)

theorem maxFold_mem {α : Type} [LinearOrder α] {l : List α} {m : α}
    (h : maxFold l = some m) : m ∈ l := by
  induction l generalizing m with
  | nil => simp [maxFold] at h
  | cons x xs ih =>
    simp only [maxFold] at h
    cases hx : maxFold xs with
    | none => rw [hx] at h; simp at h; simp [h]
    | some m' =>
      rw [hx] at h
      simp at h
      rcases max_choice x m' with hc | hc <;> rw [← h, hc]
      · simp
      · exact List.mem_cons_of_mem _ (ih hx)

theorem maxFold_ge {α : Type} [LinearOrder α] {l : List α} {m : α}
    (h : maxFold l = some m) : ∀ x ∈ l, x ≤ m := by
  induction l generalizing m with
  | nil => simp [maxFold] at h
  | cons x xs ih =>
    simp only [maxFold] at h
    cases hx : maxFold xs with
    | none =>
      rw [hx] at h
      simp at h
      rw [maxFold_eq_none] at hx
      subst hx
      simp [← h]
    | some m' =>
      rw [hx] at h
      simp at h
      intro y hy
      rcases List.mem_cons.mp hy with hy | hy
      · rw [← h, hy]; exact le_max_left _ _
      · rw [← h]
        exact le_trans (ih hx y hy) (le_max_right _ _)

theorem maxFold_eq_of {α : Type} [LinearOrder α] {l : List α} {a : α}
    (hmem : a ∈ l) (hub : ∀ x ∈ l, x ≤ a) : maxFold l = some a := by
  cases hm : maxFold l with
  | none =>
    rw [maxFold_eq_none] at hm
    subst hm
    simp at hmem
  | some m =>
    have h1 : m ≤ a := hub m (maxFold_mem hm)
    have h2 : a ≤ m := maxFold_ge hm a hmem
    rw [le_antisymm h1 h2]

/-- Insertion step for sorting rationals ascending (models the sorting done
internally by pandas quantile). -/
def insertQ (x : ℚ) : List ℚ → List ℚ
  | [] => [x]
  | y :: ys => if x ≤ y then x :: y :: ys else y :: insertQ x ys

/-- Ascending insertion sort on rationals. -/
def sortQ : List ℚ → List ℚ
  | [] => []
  | x :: xs => insertQ x (sortQ xs)

/-- pandas `Series.quantile(q)` with default linear interpolation:
sort the values, take h = q·(n−1), and interpolate between the two
surrounding order statistics.  `none` on an empty series. -/
def quantileQ (l : List ℚ) (q : ℚ) : Option ℚ :=
  let xs := sortQ l
  if xs.isEmpty then none
  else
    let n := xs.length
    let h : ℚ := q * ((n : ℚ) - 1)
    let i : ℕ := (Int.floor h).toNat
    if i + 1 < n then
      some (xs.getD i 0 + (h - (i : ℚ)) * (xs.getD (i + 1) 0 - xs.getD i 0))
    else some (xs.getD (n - 1) 0)

/-- `estimate_fvc_parameters` (lines 62-122): derives the two FVC reference
values under the selected policy, stores them on the analyzer, and returns
them.  `literature` uses the constants 0.15/0.85; `data_driven` uses
min−0.02 / max+0.02 clamped into [0.05, 0.95] — on an empty observation
set pandas yields NaN for min and max, but Python's `max(0.05, nan)`
keeps 0.05 and `min(0.95, nan)` keeps 0.95 (the comparison with NaN is
false and the first argument wins), so the call still succeeds with the
clamp constants (0.05, 0.95); `seasonal` uses the 25th percentile of
early-season values (day offset ≤ 30, fallback 0.15) and the 75th
percentile of mid-season values (offset in [60,120], fallback 0.85),
clamped likewise.  Unknown policy names raise ValueError. -/
def estimateFvcParameters (st : AnalyzerState) (method : String) :
    Except PyError ((ℚ × ℚ) × AnalyzerState) :=
  if method = "literature" then
    let ps : ℚ × ℚ := (3/20, 17/20)
    .ok (ps, { st with soil := some ps.1, veg := some ps.2 })
  else if method = "data_driven" then
    match minFold (st.obs.map Prod.snd), maxFold (st.obs.map Prod.snd) with
    | some mn, some mx =>
      let ps : ℚ × ℚ := (max (1/20) (mn - 1/50), min (19/20) (mx + 1/50))
      .ok (ps, { st with soil := some ps.1, veg := some ps.2 })
    | _, _ =>
      let ps : ℚ × ℚ := (1/20, 19/20)
      .ok (ps, { st with soil := some ps.1, veg := some ps.2 })
  else if method = "seasonal" then
    let doff := st.obs.map (fun o => (o.1 - st.sowing, o.2))
    let early := (doff.filter (fun o => decide (o.1 ≤ 30))).map Prod.snd
    let soil0 : ℚ :=
      match quantileQ early (1/4) with
      | some q => q
      | none => 3/20
    let mid := (doff.filter (fun o => decide (60 ≤ o.1) && decide (o.1 ≤ 120))).map Prod.snd
    let veg0 : ℚ :=
      match quantileQ mid (3/4) with
      | some q => q
      | none => 17/20
    let ps : ℚ × ℚ := (max (1/20) soil0, min (19/20) veg0)
    .ok (ps, { st with soil := some ps.1, veg := some ps.2 })
  else .error .valueError

/-- The scalar normalization applied by `calculate_fvc` to each value:
FVC = (v − soil)/(vegetation − soil), clipped to [0,1]. -/
def coverFraction (soil veg x : ℚ) : ℚ := clip01 ((x - soil) / (veg - soil))

/-- `calculate_fvc` (lines 124-148): raises ValueError when either FVC
parameter is still unset, otherwise normalizes every value and clips the
results to [0,1].  Note: the source validates only that the parameters
exist, never that vegetation > soil. -/
def calcFvc (st : AnalyzerState) (vals : List ℚ) : Except PyError (List ℚ) :=
  match st.soil, st.veg with
  | some s, some v => .ok (vals.map (coverFraction s v))
  | _, _ => .error .valueError

/-- `calculate_ground_cover_percentage` (lines 150-162): FVC × 100. -/
def groundCoverPercentage (fvcVals : List ℚ) : List ℚ :=
  fvcVals.map (fun f => f * 100)

/-- The daily integer day-offset grid `x_interp` built by `interpolate_ndvi`:
pd.date_range from sowing to harvest inclusive, as offsets 0..L (empty when
harvest precedes sowing). -/
def dayOffsets (st : AnalyzerState) : List ℤ :=
  if st.harvest < st.sowing then []
  else (List.range ((st.harvest - st.sowing).toNat + 1)).map (fun i => (i : ℤ))

/-- The per-day growth-phase blend of `_balanced_interpolation`
(lines 284-329): eight day-offset phases, each mixing the sigmoid baseline
value with a linear phase target under a fixed weight; before emergence the
value is pulled toward 0.05 by an exponential transition. -/
def phaseBlend (lib : NumLib) (maxDay : ℚ) (days : ℤ) (base : ℚ) : ℚ :=
  let d : ℚ := (days : ℚ)
  if d < 10 then
    let transition := 1 - lib.expQ (-(10 - d) / 5)
    1/20 * transition + base * (1 - transition)
  else if d < 45 then
    let progress := (d - 10) / (45 - 10)
    let target := 1/20 + 1/4 * progress
    (1 - 2/5) * base + 2/5 * target
  else if d < 120 then
    let progress := (d - 45) / (120 - 45)
    let target := 3/10 + 7/20 * progress
    (1 - 1/2) * base + 1/2 * target
  else if d < 200 then
    let progress := (d - 120) / (200 - 120)
    let target := 13/20 + 1/5 * progress
    (1 - 3/5) * base + 3/5 * target
  else if d < 230 then
    let progress := (d - 200) / (230 - 200)
    let target := 17/20 + 1/10 * progress
    (1 - 7/10) * base + 7/10 * target
  else if d < 245 then
    let target : ℚ := 19/20
    (1 - 4/5) * base + 4/5 * target
  else if d < 270 then
    let progress := (d - 245) / (270 - 245)
    let target := 19/20 - 3/10 * progress
    (1 - 3/5) * base + 3/5 * target
  else
    let progress := (d - 270) / (maxDay - 270)
    let target := 13/20 - 1/2 * progress
    (1 - 7/10) * base + 7/10 * target

/-- The observed-data constraint step of `_balanced_interpolation`
(lines 331-344) for a single observation: if its day offset lies on the
daily grid, pull that day 90% toward the observed value, then pull every
other day within 50 day-units toward it with exponentially decaying
strength 0.5·exp(−distance/15). -/
def applyObsPull (lib : NumLib) (xi : List ℤ) (obsDay : ℤ) (obsVal : ℚ)
    (y : List ℚ) : List ℚ :=
  if obsDay ∈ xi then
    let idx := xi.indexOf obsDay
    let y1 := y.set idx (9/10 * obsVal + 1/10 * y.getD idx 0)
    (List.range xi.length).map (fun i =>
      if i = idx then y1.getD i 0
      else
        let dist : ℚ := |((xi.getD i 0 : ℤ) : ℚ) - (obsDay : ℚ)|
        if dist < 50 then
          let influence := lib.expQ (-dist / 15)
          (1 - influence * (1/2)) * y1.getD i 0 + influence * (1/2) * obsVal
        else y1.getD i 0)
  else y

/-- `_balanced_interpolation` (lines 251-350), the guided algorithm:
a sigmoid baseline anchored on the observed peak value and mean observation
day (growth rate 0.02, baseline 0.05), per-day phase blending, the
per-observation pull step in input order, and a final gaussian smoothing
pass (sigma 1.5).  np.max over an empty observation set raises. -/
def balancedInterpolation (lib : NumLib) (st : AnalyzerState) (xi : List ℤ) :
    Except PyError (List ℚ) :=
  match maxFold (st.obs.map Prod.snd) with
  | none => .error .valueError
  | some peak =>
    let xObsDays := st.obs.map (fun o => o.1 - st.sowing)
    let peakDay : ℚ := (xObsDays.map (fun d => (d : ℚ))).sum / (xObsDays.length : ℚ)
    let baseline := xi.map (fun d =>
      1/20 + (peak - 1/20) / (1 + lib.expQ (-(1/50) * ((d : ℚ) - peakDay))))
    let maxDay : ℚ := (((maxFold xi).getD 0 : ℤ) : ℚ)
    let y1 := (List.zip xi baseline).map (fun p => phaseBlend lib maxDay p.1 p.2)
    let y2 := (st.obs.map (fun o => (o.1 - st.sowing, o.2))).foldl
      (fun y o => applyObsPull lib xi o.1 o.2 y) y1
    .ok (lib.gaussian1d (3/2) y2)

/-- The per-day curve of `_physiological_interpolation` (lines 372-406):
nine day-offset segments with linear targets; the pre-emergence and
flowering plateaus add a small random jitter. -/
def physiologicalValue (lib : NumLib) (maxDay : ℚ) (i : ℕ) (days : ℤ) : ℚ :=
  let d : ℚ := (days : ℚ)
  if d < 10 then 1/20 + 1/50 * lib.rand i
  else if d < 45 then 1/20 + 3/20 * ((d - 10) / 35)
  else if d < 120 then 1/5 + 1/4 * ((d - 45) / 75)
  else if d < 200 then 9/20 + 1/4 * ((d - 120) / 80)
  else if d < 220 then 7/10 + 3/20 * ((d - 200) / 20)
  else if d < 230 then 17/20 + 1/20 * ((d - 220) / 10)
  else if d < 245 then 9/10 + 1/50 * lib.rand i
  else if d < 270 then 9/10 - 3/10 * ((d - 245) / 25)
  else 3/5 - 1/2 * ((d - 270) / (maxDay - 270))

/-- `_physiological_interpolation` (lines 352-419): builds the segment curve
per day, then blends each observation landing on the grid 70% observed /
30% curve.  Total even with no observations. -/
def physiologicalInterpolation (lib : NumLib) (st : AnalyzerState)
    (xi : List ℤ) : List ℚ :=
  let maxDay : ℚ := (((maxFold xi).getD 0 : ℤ) : ℚ)
  let y0 := (xi.enum).map (fun p => physiologicalValue lib maxDay p.1 p.2)
  (st.obs.map (fun o => (o.1 - st.sowing, o.2))).foldl
    (fun y o =>
      if o.1 ∈ xi then
        let idx := xi.indexOf o.1
        y.set idx (7/10 * o.2 + 3/10 * y.getD idx 0)
      else y) y0

/-- `_sigmoid_interpolation` (lines 421-456): a single sigmoid with fixed
inflection day 240 and growth rate 0.02, amplitude anchored on the observed
peak value over a 0.05 baseline; observations landing on the grid are then
blended 80% observed / 20% curve.  pandas max of an empty series is NaN,
which poisons the whole output series; the embedding surfaces that as
`.error .nanPropagation`. -/
def sigmoidInterpolation (lib : NumLib) (st : AnalyzerState) (xi : List ℤ) :
    Except PyError (List ℚ) :=
  match maxFold (st.obs.map Prod.snd) with
  | none => .error .nanPropagation
  | some peak =>
    let y0 := xi.map (fun d => peak / (1 + lib.expQ (-(1/50) * ((d : ℚ) - 240))))
    let y1 := y0.map (fun v => 1/20 + (peak - 1/20) * v / peak)
    let y2 := (st.obs.map (fun o => (o.1 - st.sowing, o.2))).foldl
      (fun y o =>
        if o.1 ∈ xi then
          let idx := xi.indexOf o.1
          y.set idx (4/5 * o.2 + 1/5 * y.getD idx 0)
        else y) y1
    .ok y2

/-- The trajectory-reconstruction dispatch of `interpolate_ndvi`
(lines 175-197): balanced/physiological/sigmoid use the dedicated curves;
cubic needs ≥4 observations and any other name falls through to linear
(≥2 observations), both via scipy interp1d which raises below those
arities; polynomial fits np.polyfit with degree min(3, n−1), which raises
only on an empty observation set. -/
def rawInterp (lib : NumLib) (st : AnalyzerState) (xi : List ℤ)
    (method : String) : Except PyError (List ℚ) :=
  if method = "balanced" then balancedInterpolation lib st xi
  else if method = "physiological" then .ok (physiologicalInterpolation lib st xi)
  else if method = "sigmoid" then sigmoidInterpolation lib st xi
  else
    let pts := st.obs.map (fun o => (o.1 - st.sowing, o.2))
    let n := st.obs.length
    if method = "cubic" then
      if n < 4 then .error .valueError
      else .ok (xi.map (fun d => lib.interpCubic pts ((d : ℤ) : ℚ)))
    else if method = "polynomial" then
      if n = 0 then .error .valueError
      else
        let deg := min 3 (n - 1)
        let coeffs := lib.polyfit deg pts
        .ok (xi.map (fun d => lib.polyval coeffs ((d : ℤ) : ℚ)))
    else
      if n < 2 then .error .valueError
      else .ok (xi.map (fun d => lib.interpLinear pts ((d : ℤ) : ℚ)))

/-- Insertion step for sorting (day, value) pairs by day ascending. -/
def insertByX (p : ℤ × ℚ) : List (ℤ × ℚ) → List (ℤ × ℚ)
  | [] => [p]
  | q :: qs => if p.1 ≤ q.1 then p :: q :: qs else q :: insertByX p qs

/-- Sort (day, value) pairs by day ascending. -/
def sortByX : List (ℤ × ℚ) → List (ℤ × ℚ)
  | [] => []
  | p :: ps => insertByX p (sortByX ps)

/-- Keep only the first occurrence of each day value, in input order. -/
def firstOccByX (ps : List (ℤ × ℚ)) : List (ℤ × ℚ) :=
  ps.foldl (fun acc p => if acc.any (fun q => q.1 = p.1) then acc else acc ++ [p]) []

/-- np.unique(x_boot, return_index=True) as used in the bootstrap
(lines 471-474): the resampled pairs deduplicated by day (first occurrence
wins) and returned in ascending day order. -/
def uniqueByX (ps : List (ℤ × ℚ)) : List (ℤ × ℚ) :=
  sortByX (firstOccByX ps)

/-- One bootstrap trial of `_calculate_confidence_intervals`
(lines 465-496): select the drawn observation pairs, deduplicate by day,
skip the trial (`none`) when fewer than 2 unique points remain, otherwise
refit (cubic when requested and ≥4 points, quadratic polyfit when requested
and ≥3 points, linear otherwise) and evaluate at every day of the grid. -/
def trialPredict (lib : NumLib) (method : String) (pairs : List (ℤ × ℚ))
    (draw : List ℕ) (xi : List ℤ) : Option (List ℚ) :=
  let sel := draw.filterMap (fun i => pairs[i]?)
  let uniq := uniqueByX sel
  if uniq.length < 2 then none
  else
    let f : ℚ → ℚ :=
      if method = "cubic" ∧ 4 ≤ uniq.length then lib.interpCubic uniq
      else if method = "polynomial" ∧ 3 ≤ uniq.length then
        lib.polyval (lib.polyfit (min 2 (uniq.length - 1)) uniq)
      else lib.interpLinear uniq
    some (xi.map (fun d => f ((d : ℤ) : ℚ)))

/-- `_calculate_confidence_intervals` (lines 458-508).  `pairs` is the
zipped (x_obs, y_obs) observation data and `draws` the bootstrap index
draws (one list per trial; its length plays the role of n_bootstrap).
When every trial is skipped, the source's fallback line evaluates
`y_interp * 0.95` — but no `y_interp` local exists in this method, so the
interpreter raises NameError, modelled here as `.error .nameError`.
Otherwise the 2.5th/97.5th np.percentile across trials is returned. -/
def calcConfidenceIntervals (lib : NumLib) (draws : List (List ℕ))
    (pairs : List (ℤ × ℚ)) (xi : List ℤ) (method : String) :
    Except PyError (List ℚ × List ℚ) :=
  let preds := draws.filterMap (fun dr => trialPredict lib method pairs dr xi)
  if preds = [] then .error .nameError
  else .ok (lib.percentile (5/2) preds, lib.percentile (195/2) preds)

/-- Row construction of the `daily_ndvi` DataFrame (lines 230-247): one
record per grid day, carrying the clipped NDVI, clipped bounds, and — when
FVC was computed — the FVC triple and the ground-cover percentages. -/
def mkDaily (st : AnalyzerState) (xi : List ℤ) (yc lo hi : List ℚ)
    (fvcs : Option (List ℚ × List ℚ × List ℚ)) : List DailyPoint :=
  (List.range xi.length).map (fun i =>
    { date := st.sowing + xi.getD i 0
      dayOffset := xi.getD i 0
      ndvi := yc.getD i 0
      lower := lo.getD i 0
      upper := hi.getD i 0
      fvc := fvcs.map (fun t => t.1.getD i 0)
      fvcLower := fvcs.map (fun t => t.2.1.getD i 0)
      fvcUpper := fvcs.map (fun t => t.2.2.getD i 0)
      groundCover := fvcs.map (fun t => t.1.getD i 0 * 100)
      gcLower := fvcs.map (fun t => t.2.1.getD i 0 * 100)
      gcUpper := fvcs.map (fun t => t.2.2.getD i 0 * 100) })

/-- `interpolate_ndvi` (lines 164-249): reconstruct the daily series under
the selected algorithm, clip it to [0,1], compute bootstrap confidence
bounds and clip them to [0,1], then — when the soil parameter has been
estimated — normalize all three series through `calculate_fvc` (which
clips again) and derive ground-cover percentages. -/
def interpolateNdvi (lib : NumLib) (draws : List (List ℕ))
    (st : AnalyzerState) (method : String) :
    Except PyError (List DailyPoint) :=
  let xi := dayOffsets st
  match rawInterp lib st xi method with
  | .error e => .error e
  | .ok y =>
    let yc := y.map clip01
    let pairs := st.obs.map (fun o => (o.1 - st.sowing, o.2))
    match calcConfidenceIntervals lib draws pairs xi method with
    | .error e => .error e
    | .ok ci =>
      let lo := ci.1.map clip01
      let hi := ci.2.map clip01
      match st.soil with
      | none => .ok (mkDaily st xi yc lo hi none)
      | some _ =>
        match calcFvc st yc, calcFvc st lo, calcFvc st hi with
        | .ok f, .ok fl, .ok fh => .ok (mkDaily st xi yc lo hi (some (f, fl, fh)))
        | .error e, _, _ => .error e
        | .ok _, .error e, _ => .error e
        | .ok _, .ok _, .error e => .error e

/-- First index of the maximum value in a list (pandas idxmax, used to
locate the peak NDVI day); 0 on an empty list. -/
def idxmaxQ (l : List ℚ) : ℕ :=
  ((l.enum.foldl (fun acc p =>
      match acc with
      | none => some p
      | some q => if q.2 < p.2 then some p else some q) none).map Prod.fst).getD 0

/-- The fixed anchor schedule of `estimate_growth_stages` (lines 520-531),
in source dict-insertion order: 10 named anchors derived from sowing date,
peak date and harvest date. -/
def scheduleList (sow peak harv : ℤ) : List (String × ℤ) :=
  [("Sowing", sow), ("Emergence", sow + 10), ("Tillering", sow + 45),
   ("Stem Elongation", sow + 120), ("Booting", peak - 20),
   ("Heading", peak - 10), ("Flowering", peak), ("Grain Filling", peak + 15),
   ("Maturity", harv - 25), ("Harvest", harv)]

/-- `min(growth_stage_dates[s] for s in next_stages)` (lines 540-542): the
smallest anchor strictly later than the given one, if any. -/
def nextAnchor (L : List (String × ℤ)) (a : ℤ) : Option ℤ :=
  minFold ((L.map Prod.snd).filter (fun b => decide (a < b)))

/-- The day mask a stage assigns over in `estimate_growth_stages`
(lines 536-548): a non-Harvest stage covers days from its anchor up to
(exclusive) the next-later anchor, or through harvest when no later anchor
exists; the Harvest stage covers exactly its own anchor date. -/
def stageMask (L : List (String × ℤ)) (harv : ℤ) (e : String × ℤ) (d : ℤ) :
    Bool :=
  if e.1 = "Harvest" then decide (d = e.2)
  else
    decide (e.2 ≤ d) &&
      (match nextAnchor L e.2 with
       | some nxt => decide (d < nxt)
       | none => decide (d ≤ harv))

/-- The final Growth_Stage label of one day: stages are applied in dict
order over their masks, later assignments overwriting earlier ones, with
initial value "Unknown" (line 534). -/
def labelDay (L : List (String × ℤ)) (harv : ℤ) (d : ℤ) : String :=
  L.foldl (fun acc e => if stageMask L harv e d then e.1 else acc) "Unknown"

/-- The largest anchor at or before a given day — the quantity the spec
says selects each day's label. -/
def maxAnchorLE (L : List (String × ℤ)) (d : ℤ) : Option ℤ :=
  maxFold ((L.map Prod.snd).filter (fun a => decide (a ≤ d)))

/-- `estimate_growth_stages` (lines 510-551): locate the peak day of the
current daily series, build the anchor schedule, and label every day. -/
def estimateGrowthStages (st : AnalyzerState) (daily : List DailyPoint) :
    List (String × ℤ) × List (DailyPoint × String) :=
  let peakDate := (daily.map DailyPoint.date).getD (idxmaxQ (daily.map DailyPoint.ndvi)) 0
  let L := scheduleList st.sowing peakDate st.harvest
  (L, daily.map (fun p => (p, labelDay L st.harvest p.date)))

/-- A trivial instantiation of the opaque numeric library, used by the
concrete evaluations below. -/
def trivLib : NumLib where
  expQ := fun _ => 0
  interpLinear := fun _ _ => 0
  interpCubic := fun _ _ => 0
  polyfit := fun _ _ => []
  polyval := fun _ _ => 0
  gaussian1d := fun _ l => l
  percentile := fun _ ps => ps.headD []
  rand := fun _ => 0

/-- Whether an `Except` computation succeeded. -/
def exceptOk {ε α : Type} : Except ε α → Bool
  | .ok _ => true
  | .error _ => false

/-- Whether a value lies in the unit interval, as a boolean. -/
def unitB (x : ℚ) : Bool := decide (0 ≤ x) && decide (x ≤ 1)

/-- `unitB` lifted to an optional value (vacuously true when absent). -/
def optUnit : Option ℚ → Bool
  | some f => unitB f
  | none => true

/-- All [0,1]-bounded fields of a daily record are in range: the
reconstructed NDVI, both confidence bounds, and (when present) the cover
fraction and its bounds. -/
def pointBounded (pt : DailyPoint) : Bool :=
  unitB pt.ndvi && unitB pt.lower && unitB pt.upper &&
    optUnit pt.fvc && optUnit pt.fvcLower && optUnit pt.fvcUpper

/-- The stored normalization parameters, when both set, satisfy
vegetation > soil. -/
def paramsOrdered (st : AnalyzerState) : Bool :=
  match st.soil, st.veg with
  | some s, some v => decide (s < v)
  | _, _ => true

theorem clip01_bound (x : ℚ) : 0 ≤ clip01 x ∧ clip01 x ≤ 1 := by
  constructor
  · exact le_max_left 0 _
  · exact max_le (by norm_num) (min_le_left 1 x)

theorem clip01_mono {a b : ℚ} (h : a ≤ b) : clip01 a ≤ clip01 b :=
  max_le_max le_rfl (min_le_min le_rfl h)

theorem unitB_clip01 (x : ℚ) : unitB (clip01 x) = true := by
  have h := clip01_bound x
  simp [unitB, h.1, h.2]

theorem unitB_coverFraction (s v x : ℚ) : unitB (coverFraction s v x) = true :=
  unitB_clip01 _

theorem unitB_getD_map {g : ℚ → ℚ} (hg : ∀ x, unitB (g x) = true)
    (l : List ℚ) (i : ℕ) : unitB ((l.map g).getD i 0) = true := by
  induction l generalizing i with
  | nil => simp [unitB]
  | cons x xs ih =>
    cases i with
    | zero => simpa using hg x
    | succ j => simpa using ih j

/-- A concrete analyzer whose two FVC parameters coincide (0.5 each):
degenerate in the sense of the spec's DegenerateParameterError. -/
def degenerateState : AnalyzerState :=
  { obs := [], sowing := 0, harvest := 3, soil := some (1/2), veg := some (1/2) }

/-- A concrete freshly-constructed analyzer: one observation, FVC
parameters not yet estimated. -/
def freshState : AnalyzerState :=
  { obs := [(5, 1/2)], sowing := 0, harvest := 3, soil := none, veg := none }

/-- A concrete analyzer holding a single observation. -/
def singleObsState : AnalyzerState :=
  { obs := [(5, 3/10)], sowing := 0, harvest := 3, soil := none, veg := none }

/-- C1 — the source never rejects degenerate normalization parameters.
With vegetation_index = soil_index (both 0.5) already stored,
`calculate_fvc` succeeds instead of failing: its only guard (lines
136-137) checks that the parameters exist, not that vegetation > soil, so
numpy silently divides by zero (NaN/∞ with warnings suppressed),
contradicting the claimed DegenerateParameterError and the docstring's
promised [0,1] output. -/
theorem C1_degenerate_params_not_rejected :
    exceptOk (calcFvc degenerateState [7/10]) = true := by
  rfl

/-- C10 — invoking the Index Normalizer before any parameter-estimation
policy has run (both reference parameters still unset) fails with an error
(ValueError, lines 136-137) rather than computing a cover fraction. -/
theorem C10_unset_params_rejected (st : AnalyzerState) (vals : List ℚ)
    (h1 : st.soil = none) (h2 : st.veg = none) :
    calcFvc st vals = .error .valueError := by
  simp [calcFvc, h1, h2]

/-- C10 witness: the error is observed on a concrete fresh analyzer. -/
theorem C10_unset_params_rejected_w :
    freshState.soil = none ∧ freshState.veg = none ∧
    calcFvc freshState [1/2, 7/10] = .error .valueError :=
  ⟨rfl, rfl, C10_unset_params_rejected _ [1/2, 7/10] rfl rfl⟩

/-- C8 — for fixed normalization parameters with vegetation > soil, the
cover fraction is monotone non-decreasing in the index value. -/
theorem C8_coverFraction_monotone (soil veg v1 v2 : ℚ) (hp : soil < veg)
    (hv : v1 ≤ v2) : coverFraction soil veg v1 ≤ coverFraction soil veg v2 := by
  unfold coverFraction
  have hd : (0 : ℚ) < veg - soil := by linarith
  exact clip01_mono ((div_le_div_right hd).mpr (by linarith))

/-- C8 witness: monotonicity observed at concrete parameters and inputs. -/
theorem C8_coverFraction_monotone_w :
    ((0 : ℚ) < 9/10) ∧ ((1/4 : ℚ) ≤ 1/2) ∧
    coverFraction 0 (9/10) (1/4) ≤ coverFraction 0 (9/10) (1/2) :=
  ⟨by norm_num, by norm_num,
    C8_coverFraction_monotone 0 (9/10) (1/4) (1/2) (by norm_num) (by norm_num)⟩

theorem singleton_getElem? {α : Type} {a x : α} {i : ℕ}
    (h : [a][i]? = some x) : x = a := by
  cases i with
  | zero => simp at h; exact h.symm
  | succ j => simp at h

theorem foldl_inv {α β : Type} {f : β → α → β} {P : β → Prop} :
    ∀ (l : List α) (acc : β), P acc → (∀ b x, x ∈ l → P b → P (f b x)) →
      P (l.foldl f acc) := by
  intro l
  induction l with
  | nil => intro acc h _; simpa using h
  | cons x xs ih =>
    intro acc h hstep
    exact ih (f acc x) (hstep acc x (by simp) h)
      (fun b y hy hb => hstep b y (by simp [hy]) hb)

theorem firstOccByX_const {a : ℤ × ℚ} (ps : List (ℤ × ℚ))
    (hall : ∀ x ∈ ps, x = a) :
    firstOccByX ps = [] ∨ firstOccByX ps = [a] := by
  unfold firstOccByX
  refine foldl_inv (P := fun b => b = [] ∨ b = [a]) ps [] (Or.inl rfl) ?_
  intro b x hx hb
  have hxa : x = a := hall x hx
  subst hxa
  rcases hb with hb | hb <;> subst hb <;> simp

theorem uniqueByX_const {a : ℤ × ℚ} (ps : List (ℤ × ℚ))
    (h : ∀ x ∈ ps, x = a) : uniqueByX ps = [] ∨ uniqueByX ps = [a] := by
  unfold uniqueByX
  rcases firstOccByX_const ps h with hf | hf <;> rw [hf]
  · exact Or.inl rfl
  · exact Or.inr rfl

/-- C2 — the claimed ±5% fallback is unreachable: when zero bootstrap
trials succeed (here forced by a single observation, so every resample has
at most one unique day), `_calculate_confidence_intervals` executes
`return {'lower': y_interp * 0.95, ...}` (line 500), but no local
`y_interp` exists in that method, so Python raises NameError instead of
returning primary×[0.95, 1.05].  This holds for every draw sequence, every
day grid and every numeric library. -/
theorem C2_zero_trials_name_error (lib : NumLib) (draws : List (List ℕ))
    (xi : List ℤ) :
    calcConfidenceIntervals lib draws [(100, 1/2)] xi "linear"
      = .error .nameError := by
  have hpred : ∀ dr ∈ draws,
      trialPredict lib "linear" [(100, 1/2)] dr xi = none := by
    intro dr _
    have hsel : ∀ x ∈ dr.filterMap (fun i => [((100 : ℤ), (1/2 : ℚ))][i]?),
        x = ((100 : ℤ), (1/2 : ℚ)) := by
      intro x hx
      rcases List.mem_filterMap.mp hx with ⟨i, _, hi⟩
      exact singleton_getElem? hi
    have hlen : (uniqueByX
        (dr.filterMap (fun i => [((100 : ℤ), (1/2 : ℚ))][i]?))).length < 2 := by
      rcases uniqueByX_const _ hsel with hu | hu <;> rw [hu] <;> simp
    simp only [trialPredict]
    rw [if_pos hlen]
  have hnil : draws.filterMap
      (fun dr => trialPredict lib "linear" [(100, 1/2)] dr xi) = [] :=
    List.filterMap_eq_nil.mpr hpred
  unfold calcConfidenceIntervals
  rw [hnil]
  rfl

/-- C6 counterexample — the claim says the polynomial-fit algorithm fails
with InsufficientDataError on a single observation, but the source lowers
the degree to min(3, n−1) = 0 (line 192) and np.polyfit succeeds with a
constant fit: the reconstruction returns a series, not an error. -/
theorem C6_counterexample :
    exceptOk (rawInterp trivLib singleObsState (dayOffsets singleObsState)
      "polynomial") = true := by
  rfl

/-- C6 (amended) — arity behavior of the reconstruction algorithms, for
every observation sequence: linear fails exactly when fewer than 2
observations, cubic exactly when fewer than 4; polynomial fails only on an
empty sequence (its degree adapts, so n ≥ degree+1 always holds for n ≥ 1);
guided (balanced) fails only on an empty sequence (np.max of an empty
array raises), and logistic (sigmoid) yields a usable series except on an
empty sequence, where pandas' NaN peak poisons the output (modelled as
failure). -/
theorem C6_fit_arity (lib : NumLib) (st : AnalyzerState) :
    (exceptOk (rawInterp lib st (dayOffsets st) "linear") = false
      ↔ st.obs.length ≤ 1) ∧
    (exceptOk (rawInterp lib st (dayOffsets st) "cubic") = false
      ↔ st.obs.length ≤ 3) ∧
    (exceptOk (rawInterp lib st (dayOffsets st) "polynomial") = false
      ↔ st.obs.length = 0) ∧
    (exceptOk (rawInterp lib st (dayOffsets st) "balanced") = false
      ↔ st.obs.length = 0) ∧
    (exceptOk (rawInterp lib st (dayOffsets st) "sigmoid") = false
      ↔ st.obs.length = 0) := by
  refine ⟨?_, ?_, ?_, ?_, ?_⟩
  · simp only [rawInterp]
    norm_num
    by_cases h : st.obs.length < 2
    · simp [h, exceptOk]; omega
    · simp [h, exceptOk]; omega
  · simp only [rawInterp]
    norm_num
    by_cases h : st.obs.length < 4
    · simp [h, exceptOk]; omega
    · simp [h, exceptOk]; omega
  · simp only [rawInterp]
    norm_num
    by_cases h : st.obs = []
    · simp [h, exceptOk]
    · simp [h, exceptOk]
  · simp only [rawInterp]
    norm_num
    unfold balancedInterpolation
    cases hm : maxFold (st.obs.map Prod.snd) with
    | none =>
      rw [maxFold_eq_none, List.map_eq_nil] at hm
      simp [hm, exceptOk]
    | some peak =>
      have hne : st.obs ≠ [] := by
        intro h0
        rw [h0] at hm
        simp [maxFold] at hm
      simp [exceptOk, hne]
  · simp only [rawInterp]
    norm_num
    unfold sigmoidInterpolation
    cases hm : maxFold (st.obs.map Prod.snd) with
    | none =>
      rw [maxFold_eq_none, List.map_eq_nil] at hm
      simp [hm, exceptOk]
    | some peak =>
      have hne : st.obs ≠ [] := by
        intro h0
        rw [h0] at hm
        simp [maxFold] at hm
      simp [exceptOk, hne]

instance {ε α : Type} [DecidableEq ε] [DecidableEq α] :
    DecidableEq (Except ε α) := fun x y =>
  match x, y with
  | .ok a, .ok b => decidable_of_iff (a = b) (by simp)
  | .error a, .error b => decidable_of_iff (a = b) (by simp)
  | .ok _, .error _ => .isFalse (by simp)
  | .error _, .ok _ => .isFalse (by simp)

/-- The analyzer state after `estimate_fvc_parameters` stores a parameter
pair (used only to phrase results; every branch of the estimator performs
exactly this update). -/
def setParams (st : AnalyzerState) (ps : ℚ × ℚ) : AnalyzerState :=
  { st with soil := some ps.1, veg := some ps.2 }

/-- The spec's scenario input for the extremal policy: observed minimum
0.10 and maximum 0.90. -/
def scenarioState : AnalyzerState :=
  { obs := [(0, 1/10), (5, 9/10)], sowing := 0, harvest := 10,
    soil := none, veg := none }

theorem dataDriven_on_mk (o : List (ℤ × ℚ)) (sw hv : ℤ) (a b : Option ℚ) :
    estimateFvcParameters ⟨o, sw, hv, a, b⟩ "data_driven"
      = match minFold (o.map Prod.snd), maxFold (o.map Prod.snd) with
        | some mn, some mx =>
          .ok ((max (1/20) (mn - 1/50), min (19/20) (mx + 1/50)),
            ⟨o, sw, hv, some (max (1/20) (mn - 1/50)),
              some (min (19/20) (mx + 1/50))⟩)
        | _, _ =>
          .ok ((1/20, 19/20), ⟨o, sw, hv, some (1/20), some (19/20)⟩) := by
  cases hmin : minFold (o.map Prod.snd) <;>
    cases hmax : maxFold (o.map Prod.snd) <;>
      · simp only [estimateFvcParameters]
        rw [if_pos trivial, hmin, hmax]
        rfl

/-- C7 — for every non-empty observation sequence the extremal
(data_driven) policy returns soil = max(0.05, min(observed) − 0.02) and
vegetation = min(0.95, max(observed) + 0.02); in particular observed
min 0.10 / max 0.90 yields soil 0.08 and vegetation 0.92. -/
theorem C7_extremal_policy (st : AnalyzerState) (h : st.obs ≠ []) :
    (∃ mn mx,
      mn ∈ st.obs.map Prod.snd ∧ (∀ x ∈ st.obs.map Prod.snd, mn ≤ x) ∧
      mx ∈ st.obs.map Prod.snd ∧ (∀ x ∈ st.obs.map Prod.snd, x ≤ mx) ∧
      estimateFvcParameters st "data_driven" =
        .ok ((max (1/20) (mn - 1/50), min (19/20) (mx + 1/50)),
          setParams st (max (1/20) (mn - 1/50), min (19/20) (mx + 1/50)))) ∧
    estimateFvcParameters scenarioState "data_driven" =
      .ok ((2/25, 23/25), setParams scenarioState (2/25, 23/25)) := by
  constructor
  · obtain ⟨obs, sow, harv, s0, v0⟩ := st
    have hmap : obs.map Prod.snd ≠ [] := by
      simpa using h
    cases hmin : minFold (obs.map Prod.snd) with
    | none => exact absurd ((minFold_eq_none _).mp hmin) hmap
    | some mn =>
      cases hmax : maxFold (obs.map Prod.snd) with
      | none => exact absurd ((maxFold_eq_none _).mp hmax) hmap
      | some mx =>
        refine ⟨mn, mx, minFold_mem hmin, minFold_le hmin,
          maxFold_mem hmax, maxFold_ge hmax, ?_⟩
        rw [dataDriven_on_mk, hmin, hmax]
        rfl
  · rw [show estimateFvcParameters scenarioState "data_driven"
        = estimateFvcParameters ⟨[(0, 1/10), (5, 9/10)], 0, 10, none, none⟩
            "data_driven" from rfl,
      dataDriven_on_mk]
    norm_num [minFold, maxFold, max_def, min_def, setParams, scenarioState]

/-- C7 witness: the general statement applied to the concrete scenario
observation set. -/
theorem C7_extremal_policy_w :
    scenarioState.obs ≠ [] ∧
    ((∃ mn mx,
      mn ∈ scenarioState.obs.map Prod.snd ∧
      (∀ x ∈ scenarioState.obs.map Prod.snd, mn ≤ x) ∧
      mx ∈ scenarioState.obs.map Prod.snd ∧
      (∀ x ∈ scenarioState.obs.map Prod.snd, x ≤ mx) ∧
      estimateFvcParameters scenarioState "data_driven" =
        .ok ((max (1/20) (mn - 1/50), min (19/20) (mx + 1/50)),
          setParams scenarioState
            (max (1/20) (mn - 1/50), min (19/20) (mx + 1/50)))) ∧
    estimateFvcParameters scenarioState "data_driven" =
      .ok ((2/25, 23/25), setParams scenarioState (2/25, 23/25))) :=
  ⟨by decide, C7_extremal_policy scenarioState (by decide)⟩

/-- C9 — the Parameter Estimator is deterministic and idempotent: a
successful invocation only reads the (immutable) observations and sowing
date and overwrites the two parameters, so re-invoking any policy on the
updated analyzer returns the identical parameters and leaves the state
unchanged. -/
theorem C9_estimator_idempotent (st st' : AnalyzerState) (m : String)
    (p : ℚ × ℚ) (h : estimateFvcParameters st m = .ok (p, st')) :
    estimateFvcParameters st' m = .ok (p, st') := by
  obtain ⟨obs, sow, harv, s0, v0⟩ := st
  by_cases h1 : m = "literature"
  · subst h1
    obtain ⟨hp, hs⟩ := Prod.mk.inj (Except.ok.inj h)
    subst hp
    subst hs
    rfl
  · by_cases h2 : m = "data_driven"
    · subst h2
      rw [dataDriven_on_mk] at h
      cases hmin : minFold (obs.map Prod.snd) <;>
        cases hmax : maxFold (obs.map Prod.snd) <;>
          · rw [hmin, hmax] at h
            obtain ⟨hp, hs⟩ := Prod.mk.inj (Except.ok.inj h)
            subst hp
            subst hs
            rw [dataDriven_on_mk, hmin, hmax]
    · by_cases h3 : m = "seasonal"
      · subst h3
        obtain ⟨hp, hs⟩ := Prod.mk.inj (Except.ok.inj h)
        subst hp
        subst hs
        rfl
      · simp only [estimateFvcParameters, if_neg h1, if_neg h2, if_neg h3] at h
        exact Except.noConfusion h

/-- C9 witness: literature policy on a concrete analyzer — the first call
computes (0.15, 0.85) and the second call reproduces both the parameters
and the state. -/
theorem C9_estimator_idempotent_w :
    estimateFvcParameters freshState "literature" =
      .ok ((3/20, 17/20), setParams freshState (3/20, 17/20)) ∧
    estimateFvcParameters (setParams freshState (3/20, 17/20)) "literature" =
      .ok ((3/20, 17/20), setParams freshState (3/20, 17/20)) :=
  ⟨rfl,
    C9_estimator_idempotent freshState (setParams freshState (3/20, 17/20))
      "literature" (3/20, 17/20) rfl⟩

theorem getD_map_range (f : ℕ → ℚ) (n i : ℕ) (h : i < n) :
    ((List.range n).map f).getD i 0 = f i := by
  rw [List.getD_eq_getElem?_getD, List.getElem?_map, List.getElem?_range h]
  rfl

theorem getD_set_self (l : List ℚ) (i : ℕ) (a : ℚ) (h : i < l.length) :
    (l.set i a).getD i 0 = a := by
  rw [List.getD_eq_getElem?_getD, List.getElem?_set_self h]
  rfl

/-- C4 — guided algorithm, observation landing exactly on a reconstructed
day: immediately after that observation's pull step, the value at the
matched day equals 0.9·observed + 0.1·(value before the pull).  The
neighbor-decay pass of the same step skips the matched index, so the
equality is exact for every series, grid, library and observation. -/
theorem C4_exact_day_pull (lib : NumLib) (xi : List ℤ) (d : ℤ) (v : ℚ)
    (y : List ℚ) (h1 : d ∈ xi) (h2 : y.length = xi.length) :
    (applyObsPull lib xi d v y).getD (xi.indexOf d) 0
      = 9/10 * v + 1/10 * y.getD (xi.indexOf d) 0 := by
  have hidx : xi.indexOf d < xi.length := List.indexOf_lt_length.mpr h1
  have hidy : xi.indexOf d < y.length := by rw [h2]; exact hidx
  simp only [applyObsPull, if_pos h1]
  rw [getD_map_range _ _ _ hidx, if_pos rfl, getD_set_self _ _ _ hidy]

/-- C4 witness: the pull formula observed on a concrete grid and series. -/
theorem C4_exact_day_pull_w :
    ((1 : ℤ) ∈ ([0, 1, 2] : List ℤ)) ∧
    (([1/4, 3/5, 1/4] : List ℚ).length = ([0, 1, 2] : List ℤ).length) ∧
    (applyObsPull trivLib [0, 1, 2] 1 (1/2) [1/4, 3/5, 1/4]).getD
        (([0, 1, 2] : List ℤ).indexOf 1) 0
      = 9/10 * (1/2) + 1/10 * ([1/4, 3/5, 1/4] : List ℚ).getD
        (([0, 1, 2] : List ℤ).indexOf 1) 0 :=
  ⟨by decide, by decide,
    C4_exact_day_pull trivLib [0, 1, 2] 1 (1/2) [1/4, 3/5, 1/4]
      (by decide) (by decide)⟩

theorem calcFvc_ok {st : AnalyzerState} {vals f : List ℚ}
    (h : calcFvc st vals = .ok f) :
    ∃ s v, st.soil = some s ∧ st.veg = some v ∧
      f = vals.map (coverFraction s v) := by
  unfold calcFvc at h
  split at h
  · next s v hs hv => exact ⟨s, v, hs, hv, (Except.ok.inj h).symm⟩
  · exact Except.noConfusion h

theorem pointBounded_mk (pt : DailyPoint) (h1 : unitB pt.ndvi = true)
    (h2 : unitB pt.lower = true) (h3 : unitB pt.upper = true)
    (h4 : optUnit pt.fvc = true) (h5 : optUnit pt.fvcLower = true)
    (h6 : optUnit pt.fvcUpper = true) : pointBounded pt = true := by
  simp [pointBounded, h1, h2, h3, h4, h5, h6]

/-- C3 — for every valid input (non-empty observations, any season
boundaries, any reconstruction algorithm, any stored normalization
parameters with vegetation > soil) and every random draw sequence and
numeric library, whenever the pipeline returns a daily series, every
reconstructed index value, every confidence bound, and every cover
fraction (with its bounds) lies in [0,1]: each is produced by a final
np.clip to [0,1] (lines 199-209 and 143-148). -/
theorem C3_pipeline_bounded (lib : NumLib) (draws : List (List ℕ))
    (st : AnalyzerState) (method : String) (h1 : st.obs ≠ [])
    (h2 : paramsOrdered st = true) :
    ∀ series, interpolateNdvi lib draws st method = .ok series →
      ∀ pt ∈ series, pointBounded pt = true := by
  intro series hok pt hpt
  simp only [interpolateNdvi] at hok
  split at hok
  · exact Except.noConfusion hok
  next y hy =>
    split at hok
    · exact Except.noConfusion hok
    next ci hci =>
      split at hok
      · -- FVC parameters absent: only NDVI and bounds columns exist
        have hser := Except.ok.inj hok
        subst hser
        simp only [mkDaily] at hpt
        obtain ⟨i, _, hbuild⟩ := List.mem_map.mp hpt
        subst hbuild
        refine pointBounded_mk _ ?_ ?_ ?_ ?_ ?_ ?_
        · exact unitB_getD_map unitB_clip01 y i
        · exact unitB_getD_map unitB_clip01 ci.1 i
        · exact unitB_getD_map unitB_clip01 ci.2 i
        · rfl
        · rfl
        · rfl
      next _ hsoil =>
        split at hok
        next f fl fh hf hfl hfh =>
          obtain ⟨s, v, _, _, hfeq⟩ := calcFvc_ok hf
          obtain ⟨s', v', _, _, hfleq⟩ := calcFvc_ok hfl
          obtain ⟨s'', v'', _, _, hfheq⟩ := calcFvc_ok hfh
          subst hfeq
          subst hfleq
          subst hfheq
          have hser := Except.ok.inj hok
          subst hser
          simp only [mkDaily] at hpt
          obtain ⟨i, _, hbuild⟩ := List.mem_map.mp hpt
          subst hbuild
          refine pointBounded_mk _ ?_ ?_ ?_ ?_ ?_ ?_
          · exact unitB_getD_map unitB_clip01 y i
          · exact unitB_getD_map unitB_clip01 ci.1 i
          · exact unitB_getD_map unitB_clip01 ci.2 i
          · exact unitB_getD_map (unitB_coverFraction s v) (y.map clip01) i
          · exact unitB_getD_map (unitB_coverFraction s' v') (ci.1.map clip01) i
          · exact unitB_getD_map (unitB_coverFraction s'' v'') (ci.2.map clip01) i
        · exact Except.noConfusion hok
        · exact Except.noConfusion hok
        · exact Except.noConfusion hok

/-- A concrete analyzer for exercising the full pipeline: two
observations, season of three days, parameters soil 0.1 / vegetation
0.9. -/
def pipelineState : AnalyzerState :=
  { obs := [(0, 1/10), (2, 1/2)], sowing := 0, harvest := 2,
    soil := some (1/10), veg := some (9/10) }

/-- C3 witness: the pipeline succeeds on a concrete valid input (so the
theorem's hypotheses are satisfiable and its conclusion non-vacuous) and
every field of the resulting series is bounded. -/
theorem C3_pipeline_bounded_w :
    pipelineState.obs ≠ [] ∧ paramsOrdered pipelineState = true ∧
    exceptOk (interpolateNdvi trivLib [[0, 1]] pipelineState "linear") = true ∧
    (∀ series, interpolateNdvi trivLib [[0, 1]] pipelineState "linear"
        = .ok series → ∀ pt ∈ series, pointBounded pt = true) :=
  ⟨by decide, by norm_num [paramsOrdered, pipelineState], rfl,
    C3_pipeline_bounded trivLib [[0, 1]] pipelineState "linear" (by decide)
      (by norm_num [paramsOrdered, pipelineState])⟩

theorem foldl_if_cases {α β : Type} (p : α → Bool) (g : α → β) :
    ∀ (L : List α) (a : β),
      (∃ e ∈ L, p e = true ∧
          L.foldl (fun acc e => if p e then g e else acc) a = g e) ∨
      (L.foldl (fun acc e => if p e then g e else acc) a = a ∧
          ∀ e ∈ L, p e = false) := by
  intro L
  induction L with
  | nil => intro a; exact Or.inr ⟨rfl, by simp⟩
  | cons x xs ih =>
    intro a
    have hstep : (x :: xs).foldl (fun acc e => if p e then g e else acc) a
        = xs.foldl (fun acc e => if p e then g e else acc)
            (if p x = true then g x else a) := by
      rw [List.foldl_cons]
    cases hx : p x with
    | true =>
      rw [hstep, if_pos hx]
      rcases ih (g x) with ⟨e, he, hpe, heq⟩ | ⟨heq, _⟩
      · exact Or.inl ⟨e, List.mem_cons_of_mem _ he, hpe, heq⟩
      · exact Or.inl ⟨x, List.mem_cons_self x xs, hx, heq⟩
    | false =>
      rw [hstep, if_neg (by simp [hx])]
      rcases ih a with ⟨e, he, hpe, heq⟩ | ⟨heq, hall⟩
      · exact Or.inl ⟨e, List.mem_cons_of_mem _ he, hpe, heq⟩
      · refine Or.inr ⟨heq, ?_⟩
        intro e he
        rcases List.mem_cons.mp he with rfl | he'
        · exact hx
        · exact hall e he'

theorem stageMask_iff (L : List (String × ℤ)) (harv d : ℤ) (e : String × ℤ)
    (hn : e.1 ≠ "Harvest") (hd : d ≤ harv) :
    stageMask L harv e d = true ↔
      (e.2 ≤ d ∧ ∀ x ∈ L.map Prod.snd, x ≤ d → x ≤ e.2) := by
  unfold stageMask
  rw [if_neg hn, Bool.and_eq_true]
  constructor
  · intro ⟨hle, hnext⟩
    refine ⟨by simpa using hle, ?_⟩
    intro x hx hxd
    by_contra hgt
    push_neg at hgt
    have hmem : x ∈ (L.map Prod.snd).filter (fun b => decide (e.2 < b)) :=
      List.mem_filter.mpr ⟨hx, by simpa using hgt⟩
    cases hna : nextAnchor L e.2 with
    | none =>
      unfold nextAnchor at hna
      rw [minFold_eq_none] at hna
      rw [hna] at hmem
      simp at hmem
    | some nxt =>
      rw [hna] at hnext
      have hdn : d < nxt := by simpa using hnext
      have hle2 : nxt ≤ x := minFold_le hna x hmem
      omega
  · intro ⟨hle, hub⟩
    refine ⟨by simpa using hle, ?_⟩
    cases hna : nextAnchor L e.2 with
    | none => simpa using hd
    | some nxt =>
      have hmem := minFold_mem hna
      rw [List.mem_filter] at hmem
      obtain ⟨hmem1, hmem2⟩ := hmem
      have hgt : e.2 < nxt := by simpa using hmem2
      have : d < nxt := by
        by_contra hcon
        push_neg at hcon
        have := hub nxt hmem1 hcon
        omega
      simpa using this

theorem maxAnchorLE_isSome (L : List (String × ℤ)) (d x : ℤ)
    (hx : x ∈ L.map Prod.snd) (hxd : x ≤ d) :
    ∃ m, maxAnchorLE L d = some m := by
  unfold maxAnchorLE
  cases hm : maxFold ((L.map Prod.snd).filter (fun a => decide (a ≤ d))) with
  | none =>
    rw [maxFold_eq_none] at hm
    have hmem : x ∈ (L.map Prod.snd).filter (fun a => decide (a ≤ d)) :=
      List.mem_filter.mpr ⟨hx, by simpa using hxd⟩
    rw [hm] at hmem
    simp at hmem
  | some m => exact ⟨m, rfl⟩

theorem maxAnchorLE_spec (L : List (String × ℤ)) (d m : ℤ)
    (h : maxAnchorLE L d = some m) :
    m ∈ L.map Prod.snd ∧ m ≤ d ∧
      ∀ x ∈ L.map Prod.snd, x ≤ d → x ≤ m := by
  unfold maxAnchorLE at h
  have h1 := maxFold_mem h
  rw [List.mem_filter] at h1
  refine ⟨h1.1, by simpa using h1.2, ?_⟩
  intro x hx hxd
  exact maxFold_ge h x (List.mem_filter.mpr ⟨hx, by simpa using hxd⟩)

theorem schedule_harvest_anchor (s p h : ℤ) :
    ∀ e ∈ scheduleList s p h, e.1 = "Harvest" → e.2 = h := by
  intro e he hn
  simp only [scheduleList, List.mem_cons, List.not_mem_nil, or_false] at he
  rcases he with rfl|rfl|rfl|rfl|rfl|rfl|rfl|rfl|rfl|rfl <;>
    first
      | rfl
      | simp at hn

theorem labelDay_at_harvest (s p h : ℤ) :
    labelDay (scheduleList s p h) h h = "Harvest" := by
  unfold labelDay scheduleList
  simp only [List.foldl_cons, List.foldl_nil]
  rw [if_pos (by simp [stageMask])]

theorem labelDay_spec_lt (s p h d : ℤ) (hsd : s ≤ d) (hdh : d < h) :
    ∃ m, maxAnchorLE (scheduleList s p h) d = some m ∧
      (labelDay (scheduleList s p h) h d, m) ∈ scheduleList s p h ∧
      labelDay (scheduleList s p h) h d ≠ "Harvest" := by
  have hmem_s : s ∈ (scheduleList s p h).map Prod.snd := by
    simp [scheduleList]
  obtain ⟨m, hm⟩ := maxAnchorLE_isSome (scheduleList s p h) d s hmem_s hsd
  obtain ⟨hm_mem, hm_le, hm_max⟩ := maxAnchorLE_spec (scheduleList s p h) d m hm
  obtain ⟨em, hem, hem2⟩ := List.mem_map.mp hm_mem
  have hem_name : em.1 ≠ "Harvest" := by
    intro hname
    have h2 := schedule_harvest_anchor s p h em hem hname
    omega
  have hmask_em : stageMask (scheduleList s p h) h em d = true := by
    rw [stageMask_iff (scheduleList s p h) h d em hem_name (le_of_lt hdh)]
    rw [hem2]
    exact ⟨hm_le, hm_max⟩
  rcases foldl_if_cases (fun e => stageMask (scheduleList s p h) h e d)
      Prod.fst (scheduleList s p h) "Unknown" with
    ⟨e, he, hpe, heq⟩ | ⟨_, hall⟩
  · have hlab : labelDay (scheduleList s p h) h d = e.1 := heq
    have he_name : e.1 ≠ "Harvest" := by
      intro hname
      have he2 := schedule_harvest_anchor s p h e he hname
      unfold stageMask at hpe
      rw [if_pos hname] at hpe
      have : d = e.2 := by simpa using hpe
      omega
    obtain ⟨he_le, he_max⟩ :=
      (stageMask_iff (scheduleList s p h) h d e he_name (le_of_lt hdh)).mp hpe
    have hem_eq : e.2 = m :=
      le_antisymm (hm_max e.2 (List.mem_map_of_mem _ he) he_le)
        (he_max m hm_mem hm_le)
    refine ⟨m, hm, ?_, ?_⟩
    · rw [hlab, ← hem_eq]
      exact (Prod.mk.eta (p := e)) ▸ he
    · rw [hlab]
      exact he_name
  · exact absurd hmask_em (by simp [hall em hem])

/-- C5 — the Stage Segmenter builds exactly the 10 scheduled anchors
(Sowing=start, Emergence=start+10d, Tillering=start+45d, Stem
Elongation=start+120d, Booting=peak−20d, Heading=peak−10d, Flowering=peak,
Grain Filling=peak+15d, Maturity=end−25d, Harvest=end), and for every day
of the season the assigned label is a stage whose anchor is the latest
anchor ≤ that day; the Harvest label is assigned exactly on the season-end
date.  Holds for every sowing/peak/harvest configuration, including
non-monotone schedules. -/
theorem C5_stage_segmenter (s p h d : ℤ) (h1 : s ≤ d) (h2 : d ≤ h) :
    (scheduleList s p h).length = 10 ∧
    (∃ m, maxAnchorLE (scheduleList s p h) d = some m ∧
      (labelDay (scheduleList s p h) h d, m) ∈ scheduleList s p h) ∧
    (labelDay (scheduleList s p h) h d = "Harvest" ↔ d = h) := by
  refine ⟨rfl, ?_, ?_, ?_⟩
  · rcases lt_or_eq_of_le h2 with hlt | heq
    · obtain ⟨m, hm, hmem, _⟩ := labelDay_spec_lt s p h d h1 hlt
      exact ⟨m, hm, hmem⟩
    · subst heq
      refine ⟨d, ?_, ?_⟩
      · unfold maxAnchorLE
        apply maxFold_eq_of
        · refine List.mem_filter.mpr ⟨?_, by simp⟩
          simp [scheduleList]
        · intro x hx
          rw [List.mem_filter] at hx
          simpa using hx.2
      · rw [labelDay_at_harvest]
        simp [scheduleList]
  · intro hlab
    by_contra hne
    have hlt : d < h := lt_of_le_of_ne h2 hne
    obtain ⟨_, _, _, hnot⟩ := labelDay_spec_lt s p h d h1 hlt
    exact hnot hlab
  · intro hdh
    subst hdh
    exact labelDay_at_harvest s p d

/-- C5 witness: concrete season (start 0, peak 100, end 300) and day 50 —
the hypotheses hold and the labeling facts are produced by the theorem. -/
theorem C5_stage_segmenter_w :
    ((0 : ℤ) ≤ 50) ∧ ((50 : ℤ) ≤ 300) ∧
    ((scheduleList 0 100 300).length = 10 ∧
    (∃ m, maxAnchorLE (scheduleList 0 100 300) 50 = some m ∧
      (labelDay (scheduleList 0 100 300) 300 50, m) ∈ scheduleList 0 100 300) ∧
    (labelDay (scheduleList 0 100 300) 300 50 = "Harvest" ↔ (50 : ℤ) = 300)) :=
  ⟨by decide, by decide, C5_stage_segmenter 0 100 300 50 (by decide) (by decide)⟩

end WheatPhenology
